import Mathlib

/-!
Shallow embedding of the script src/批量解压压缩包并合并PDF.py.

The script has two stages driven by one entry function:
  - batch_unzip (lines 75-196): checks the target directory, locates ZIP
    files by three methods (os.listdir + isfile, glob "*.zip",
    case-insensitive listdir), recreates the combined_extraction directory,
    extracts every located archive into it with skip-on-error semantics,
    and keeps a running count of non-directory entries.
  - combine_pdfs (lines 29-73): recursively collects files whose name ends
    in ".pdf" (case-insensitively), sorts them by full path, appends each
    into a PdfMerger with per-file error handling, and writes merged.pdf.

Strings are modelled by Lean String, with suffix and case tests carried
out on the underlying character lists; the filesystem effects are made
explicit as an event trace plus a path-to-content map for the extraction
destination.  Environment faults the Python code can encounter (a raise
from extractall after some members were written, a raise from
merger.write) are explicit inputs of the model.
-/

namespace ZipMerge

/-- Content of one file in the model: its raw bytes together with how it
behaves when interpreted as a PDF (page count, and whether PdfMerger.append
accepts it or raises). -/
structure FileData where
  bytes : String
  pdfPages : Nat
  pdfOk : Bool
deriving DecidableEq, Repr

/-- One member of a ZIP archive, as reported by namelist(): its internal
relative path (a path ending in "/" is a directory member) and content. -/
structure ZEntry where
  path : String
  data : FileData
deriving DecidableEq, Repr

/-- Behaviour of one ZIP file on disk.  wellFormed is false when
zipfile.ZipFile raises BadZipFile on open; firstBad is the result of
testzip(); extractFault (an environment fault) makes extractall raise after
the first k members have been written. -/
structure Archive where
  wellFormed : Bool
  firstBad : Option String
  entries : List ZEntry
  extractFault : Option Nat
deriving DecidableEq, Repr

/-- One entry of the target directory listing: its name, whether it is a
regular file (os.path.isfile), and its behaviour when opened as a ZIP. -/
structure DirEntry where
  name : String
  isFile : Bool
  archive : Archive
deriving DecidableEq, Repr

/-- The extraction destination as a map from relative path to content,
kept as an association list in creation order. -/
abbrev Dest := List (String × FileData)

/-- Python s.lower() on the characters of a name. -/
def lowerName (s : String) : List Char := s.data.map Char.toLower

/-- Python item.lower().endswith(".zip"). -/
def ciZip (s : String) : Bool := ".zip".data.isSuffixOf (lowerName s)

/-- Case-sensitive name match of the glob pattern "*.zip". -/
def csZip (s : String) : Bool := ".zip".data.isSuffixOf s.data

/-- Glob skips names that start with a dot. -/
def hiddenName (s : String) : Bool := ".".data.isPrefixOf s.data

/-- Python file.lower().endswith(".pdf") from the PDF scan. -/
def ciPdf (s : String) : Bool := ".pdf".data.isSuffixOf (lowerName s)

/-- Python string comparison: lexicographic order on code points. -/
def lexLe : List Char → List Char → Bool
  | [], _ => true
  | _ :: _, [] => false
  | a :: as, b :: bs => if a < b then true else if b < a then false else lexLe as bs

/-- The order pdf_files.sort() uses: full paths compared as Python strings. -/
def candLe (a b : String × FileData) : Prop := lexLe a.1.data b.1.data = true

instance : DecidableRel candLe :=
  fun a b => inferInstanceAs (Decidable (lexLe a.1.data b.1.data = true))

/-- Writing one path into the destination: a later write to an existing
path silently replaces the earlier content (extractall overwrites). -/
def writeFile (d : Dest) (p : String) (c : FileData) : Dest :=
  if d.any (fun x => x.1 = p) then d.map (fun x => if x.1 = p then (p, c) else x)
  else d ++ [(p, c)]

/-- Materialise one archive member: directory members (trailing "/") only
create directories, so they add no file to the map. -/
def writeEntry (d : Dest) (e : ZEntry) : Dest :=
  if "/".data.isSuffixOf e.path.data then d else writeFile d e.path e.data

/-- extractall over a list of members, in archive order. -/
def writeEntries (d : Dest) (es : List ZEntry) : Dest := es.foldl writeEntry d

/-- Look up the current content of a relative path in the destination. -/
def lookupDest (d : Dest) (p : String) : Option FileData :=
  (d.find? (fun x => x.1 = p)).map (·.2)

/-- Line 166: count of namelist() entries not ending in "/". -/
def nonDirCount (a : Archive) : Nat :=
  (a.entries.filter (fun e => !("/".data.isSuffixOf e.path.data))).length

/-- The observable events of a run, in program order: fatal setup
messages, recreation of the destination, the per-archive and per-PDF
steps, and every acquisition and release of a zip or merger handle. -/
inductive Event where
  | fatalNoDir
  | fatalPerms
  | fatalNoZips
  | removeDest
  | createDest
  | procArchive (name : String)
  | openZip (name : String)
  | closeZip (name : String)
  | skipBadZip (name : String)
  | skipCorrupt (name : String)
  | extractError (name : String)
  | extracted (name : String) (n : Nat)
  | mergeStart
  | mergeNoPdfs
  | openMerger
  | appendOk (path : String)
  | appendError (path : String)
  | closeMerger
  | mergeWriteError
  | mergeSkippedUnavailable
deriving DecidableEq, Repr

/-- Lines 89-94, method 1: os.listdir entries that are regular files whose
lowered name ends in ".zip". -/
def listdirZips (listing : List DirEntry) : List DirEntry :=
  listing.filter (fun e => e.isFile && ciZip e.name)

/-- Lines 96-99, method 2: glob "*.zip" matches non-hidden entries, files
or directories, whose name ends in ".zip" case-sensitively. -/
def globZips (listing : List DirEntry) : List DirEntry :=
  listing.filter (fun e => !hiddenName e.name && csZip e.name)

/-- Lines 101-104, method 3: every listing entry, file or directory,
whose lowered name ends in ".zip". -/
def ciZips (listing : List DirEntry) : List DirEntry :=
  listing.filter (fun e => ciZip e.name)

/-- Lines 107-118: use method 1 when it found anything, else method 2,
else method 3; the run aborts when all three are empty. -/
def locate (listing : List DirEntry) : List DirEntry :=
  if !(listdirZips listing).isEmpty then listdirZips listing
  else if !(globZips listing).isEmpty then globZips listing
  else ciZips listing

/-- Lines 134-174, one loop iteration: open the entry as a ZIP (opening a
directory raises outside the BadZipFile handler and is absorbed by the
outer except), test it, skip on either failure, otherwise reopen and
extract all members; an extractall fault leaves the members already
written and is absorbed by the outer except, so the running state is
returned in every case. -/
def processOne (s : Dest × Nat) (e : DirEntry) : (Dest × Nat) × List Event :=
  if !e.isFile then
    (s, [.procArchive e.name, .extractError e.name])
  else if !e.archive.wellFormed then
    (s, [.procArchive e.name, .skipBadZip e.name])
  else if e.archive.firstBad.isSome then
    (s, [.procArchive e.name, .openZip e.name, .skipCorrupt e.name, .closeZip e.name])
  else
    match e.archive.extractFault with
    | some k =>
        ((writeEntries s.1 (e.archive.entries.take k), s.2),
         [.procArchive e.name, .openZip e.name, .closeZip e.name,
          .openZip e.name, .closeZip e.name, .extractError e.name])
    | none =>
        ((writeEntries s.1 e.archive.entries, s.2 + nonDirCount e.archive),
         [.procArchive e.name, .openZip e.name, .closeZip e.name,
          .openZip e.name, .extracted e.name (nonDirCount e.archive), .closeZip e.name])

/-- The extraction loop over the located archives, threading the
destination map and the running count and concatenating the trace. -/
def runLoop (s : Dest × Nat) : List DirEntry → (Dest × Nat) × List Event
  | [] => (s, [])
  | e :: rest =>
      let r1 := processOne s e
      let r2 := runLoop r1.1 rest
      (r2.1, r1.2 ++ r2.2)

/-- Result of the merge stage: its trace, and the pages of merged.pdf when
it was written (one list element per page, naming the source path), or
none when no output file was produced. -/
structure MergeResult where
  events : List Event
  output : Option (List String)
deriving DecidableEq, Repr

/-- Lines 56-61: append each candidate in order; a candidate whose append
raises is logged and contributes no pages. -/
def appendAll : List (String × FileData) → List String × List Event
  | [] => ([], [])
  | c :: rest =>
      let r := appendAll rest
      if c.2.pdfOk then (List.replicate c.2.pdfPages c.1 ++ r.1, .appendOk c.1 :: r.2)
      else (r.1, .appendError c.1 :: r.2)

/-- Lines 33-47: the PDF candidates of the destination, every file whose
lowered name ends in ".pdf", sorted by full path. -/
def pdfCandidates (d : Dest) : List (String × FileData) :=
  (d.filter (fun x => ciPdf x.1)).insertionSort candLe

/-- Lines 29-73, combine_pdfs: with no candidates the stage only reports
and writes nothing; otherwise a merger is opened, every candidate is
appended with per-file error handling, and merger.write produces the
output file.  When merger.write raises (the writeFault input) the outer
except absorbs it, no output is recorded, and merger.close is never
reached. -/
def combine_pdfs (writeFault : Bool) (d : Dest) : MergeResult :=
  let cands := pdfCandidates d
  if cands.isEmpty then ⟨[.mergeStart, .mergeNoPdfs], none⟩
  else
    let r := appendAll cands
    if writeFault then ⟨[.mergeStart, .openMerger] ++ r.2 ++ [.mergeWriteError], none⟩
    else ⟨[.mergeStart, .openMerger] ++ r.2 ++ [.closeMerger], some r.1⟩

/-- The state of the world a run starts from: the target directory, its
permission bits, its listing, whether combined_extraction is left over
from an earlier run and with which content, whether PyPDF2 imported, and
whether merger.write will fault. -/
structure Input where
  dirExists : Bool
  readPerm : Bool
  writePerm : Bool
  execPerm : Bool
  listing : List DirEntry
  destExists : Bool
  priorDest : Dest
  pdfAvail : Bool
  writeFault : Bool
deriving DecidableEq, Repr

/-- Lines 16-27: os.access checks on the target directory. -/
def hasPerms (inp : Input) : Bool := inp.readPerm && inp.writePerm && inp.execPerm

/-- Result of a whole run: its trace, the extraction destination when it
was created this run (with the files extracted into it), the reported
running count, and the pages of merged.pdf when it was written. -/
structure RunResult where
  events : List Event
  dest : Option Dest
  total : Nat
  merged : Option (List String)
deriving DecidableEq, Repr

/-- Lines 75-196, batch_unzip: abort on a missing directory, missing
permissions, or an empty locator result; otherwise remove a leftover
combined_extraction, create it fresh, run the extraction loop from an
empty destination and zero count, and finish with the merge stage when
PyPDF2 is available. -/
def batch_unzip (inp : Input) : RunResult :=
  if !inp.dirExists then ⟨[.fatalNoDir], none, 0, none⟩
  else if !hasPerms inp then ⟨[.fatalPerms], none, 0, none⟩
  else
    let zips := locate inp.listing
    if zips.isEmpty then ⟨[.fatalNoZips], none, 0, none⟩
    else
      let setupEvs := (if inp.destExists then [Event.removeDest] else []) ++ [Event.createDest]
      let r := runLoop ([], 0) zips
      if inp.pdfAvail then
        let m := combine_pdfs inp.writeFault r.1.1
        ⟨setupEvs ++ r.2 ++ m.events, some r.1.1, r.1.2, m.output⟩
      else
        ⟨setupEvs ++ r.2 ++ [.mergeSkippedUnavailable], some r.1.1, r.1.2, none⟩

/-- An archive entry the loop skips before extracting: a regular file that
either fails to open as a ZIP or fails testzip. -/
def badArchive (e : DirEntry) : Bool :=
  e.isFile && (!e.archive.wellFormed || e.archive.firstBad.isSome)

/-- An archive that passes every check and whose extraction completes. -/
def validNoFault (e : DirEntry) : Bool :=
  e.isFile && e.archive.wellFormed && e.archive.firstBad.isNone &&
    e.archive.extractFault.isNone

/-- The non-directory internal paths of an archive entry. -/
def entryPaths (e : DirEntry) : List String :=
  (e.archive.entries.filter (fun z => !("/".data.isSuffixOf z.path.data))).map (·.path)

/-- No non-directory internal path of e occurs in f. -/
def disjointFrom (e f : DirEntry) : Bool :=
  (entryPaths e).all (fun p => !(entryPaths f).contains p)

/-- No two archives of the list share a non-directory internal path. -/
def pairwiseDisjoint : List DirEntry → Bool
  | [] => true
  | e :: rest => rest.all (fun f => disjointFrom e f) && pairwiseDisjoint rest

/-- A run whose setup checks pass, so the extraction loop is reached. -/
def reachesExtraction (inp : Input) : Bool :=
  inp.dirExists && hasPerms inp && !(locate inp.listing).isEmpty

/-- Events marking the start of per-archive processing (line 137). -/
def isProcEvent : Event → Bool
  | .procArchive _ => true
  | _ => false

/-- Events the extraction loop can emit. -/
def isLoopEvent : Event → Bool
  | .procArchive _ | .openZip _ | .closeZip _ | .skipBadZip _
  | .skipCorrupt _ | .extractError _ | .extracted _ _ => true
  | _ => false

/-- Events the merge stage can emit. -/
def isMergeEvent : Event → Bool
  | .mergeStart | .mergeNoPdfs | .openMerger | .appendOk _
  | .appendError _ | .closeMerger | .mergeWriteError => true
  | _ => false

/-- The event marking the creation of the extraction destination. -/
def isCreateDestE : Event → Bool
  | .createDest => true
  | _ => false

/-- Acquisition of a zip handle. -/
def isOpenZipE : Event → Bool
  | .openZip _ => true
  | _ => false

/-- Release of a zip handle. -/
def isCloseZipE : Event → Bool
  | .closeZip _ => true
  | _ => false

/-- Acquisition of the merger handle. -/
def isOpenMergerE : Event → Bool
  | .openMerger => true
  | _ => false

/-- Release of the merger handle. -/
def isCloseMergerE : Event → Bool
  | .closeMerger => true
  | _ => false

/-- A successful append during the merge stage. -/
def isAppendOkE : Event → Bool
  | .appendOk _ => true
  | _ => false

/-- Any per-candidate append event of the merge stage. -/
def isAppendEvent : Event → Bool
  | .appendOk _ | .appendError _ => true
  | _ => false

/-- Concrete fixtures used by the witness and counterexample theorems. -/
def fdTxt (b : String) : FileData := ⟨b, 0, true⟩

def fdPdf (b : String) (n : Nat) : FileData := ⟨b, n, true⟩

def fdPdfBad : FileData := ⟨"PB", 3, false⟩

def archValid1 : Archive :=
  ⟨true, none, [⟨"d/", fdTxt ""⟩, ⟨"d/one.pdf", fdPdf "P1" 2⟩], none⟩

def archValid2 : Archive := ⟨true, none, [⟨"two.txt", fdTxt "T2"⟩], none⟩

def archBad : Archive := ⟨false, none, [], none⟩

def archCorrupt : Archive := ⟨true, some "member", [⟨"x.txt", fdTxt "X"⟩], none⟩

def archFault : Archive :=
  ⟨true, none, [⟨"f1.txt", fdTxt "F1"⟩, ⟨"f2.txt", fdTxt "F2"⟩], some 1⟩

def archPB : Archive := ⟨true, none, [⟨"p.txt", fdTxt "B"⟩], none⟩

def archPA : Archive := ⟨true, none, [⟨"p.txt", fdTxt "A"⟩], none⟩

def entA : DirEntry := ⟨"a.zip", true, archValid1⟩

def entB : DirEntry := ⟨"b.zip", true, archBad⟩

def entC : DirEntry := ⟨"c.zip", true, archValid2⟩

def entCorrupt : DirEntry := ⟨"corrupt.zip", true, archCorrupt⟩

def entDir : DirEntry := ⟨"sub.zip", false, archBad⟩

def entFault : DirEntry := ⟨"f.zip", true, archFault⟩

def entPB : DirEntry := ⟨"b.zip", true, archPB⟩

def entPA : DirEntry := ⟨"a.zip", true, archPA⟩

def inpMix : Input :=
  ⟨true, true, true, true, [entA, entB, entC], true, [("stale", fdTxt "S")], true, false⟩

def inpValid : Input :=
  ⟨true, true, true, true, [entA, entC], false, [], false, false⟩

def inpDup : Input :=
  ⟨true, true, true, true, [entPB, entPA], false, [], false, false⟩

def inpDirZip : Input :=
  ⟨true, true, true, true, [entDir], false, [], false, false⟩

def inpNoDir : Input :=
  ⟨false, true, true, true, [], false, [], false, false⟩

def inpWriteFault : Input :=
  ⟨true, true, true, true, [entA], false, [], true, true⟩

def destBadPdf : Dest := [("bad.pdf", fdPdfBad)]

def destTwoPdf : Dest := [("b.pdf", fdPdf "P2" 3), ("a.pdf", fdPdf "P1" 2)]

theorem lexLe_total : ∀ (a b : List Char), lexLe a b = true ∨ lexLe b a = true
  | [], _ => Or.inl rfl
  | _ :: _, [] => Or.inr rfl
  | a :: as, b :: bs => by
    rcases lt_trichotomy a b with h | h | h
    · left; simp [lexLe, h]
    · subst h
      rcases lexLe_total as bs with h2 | h2
      · left; simp [lexLe, lt_irrefl, h2]
      · right; simp [lexLe, lt_irrefl, h2]
    · right; simp [lexLe, h]

theorem lexLe_trans :
    ∀ {a b c : List Char}, lexLe a b = true → lexLe b c = true → lexLe a c = true
  | [], _, _, _, _ => rfl
  | _ :: _, [], _, hab, _ => by simp [lexLe] at hab
  | _ :: _, _ :: _, [], _, hbc => by simp [lexLe] at hbc
  | a :: as, b :: bs, c :: cs, hab, hbc => by
    rcases lt_trichotomy a b with h1 | h1 | h1
    · rcases lt_trichotomy b c with h2 | h2 | h2
      · simp [lexLe, lt_trans h1 h2]
      · subst h2; simp [lexLe, h1]
      · rcases lt_trichotomy a c with h3 | h3 | h3
        · simp [lexLe, h3]
        · subst h3
          exact absurd hbc (by simp [lexLe, h2, asymm h2])
        · exact absurd hbc (by simp [lexLe, h2, asymm h2])
    · subst h1
      rcases lt_trichotomy a c with h3 | h3 | h3
      · simp [lexLe, h3]
      · subst h3
        simp only [lexLe, lt_irrefl, if_false] at hab hbc ⊢
        exact lexLe_trans hab hbc
      · exact absurd hbc (by simp [lexLe, h3, asymm h3])
    · exact absurd hab (by simp [lexLe, h1, asymm h1])

theorem processOne_bad_state (s : Dest × Nat) (e : DirEntry) (h : badArchive e = true) :
    (processOne s e).1 = s := by
  cases hf : e.isFile <;> cases hw : e.archive.wellFormed <;>
    cases hb : e.archive.firstBad <;>
      simp_all [badArchive, processOne]

theorem processOne_bad_events (s : Dest × Nat) (e : DirEntry) (h : badArchive e = true) :
    Event.skipBadZip e.name ∈ (processOne s e).2 ∨
      Event.skipCorrupt e.name ∈ (processOne s e).2 := by
  cases hf : e.isFile <;> cases hw : e.archive.wellFormed <;>
    cases hb : e.archive.firstBad
  case false.false.none | false.false.some | false.true.none | false.true.some =>
    exact absurd h (by simp [badArchive, hf])
  case true.true.none =>
    exact absurd h (by simp [badArchive, hf, hw, hb])
  case true.false.none | true.false.some =>
    exact Or.inl (by simp [processOne, hf, hw])
  case true.true.some =>
    exact Or.inr (by simp [processOne, hf, hw, hb])

theorem processOne_proc_mem (s : Dest × Nat) (e : DirEntry) :
    Event.procArchive e.name ∈ (processOne s e).2 := by
  cases hf : e.isFile <;> cases hw : e.archive.wellFormed <;>
    cases hb : e.archive.firstBad <;> cases hk : e.archive.extractFault <;>
      simp [processOne, hf, hw, hb, hk]

theorem processOne_events_state (s t : Dest × Nat) (e : DirEntry) :
    (processOne s e).2 = (processOne t e).2 := by
  cases hf : e.isFile <;> cases hw : e.archive.wellFormed <;>
    cases hb : e.archive.firstBad <;> cases hk : e.archive.extractFault <;>
      simp [processOne, hf, hw, hb, hk]

theorem runLoop_state_filter_bad (zips : List DirEntry) :
    ∀ s : Dest × Nat,
      (runLoop s zips).1 = (runLoop s (zips.filter (fun e => !badArchive e))).1 := by
  induction zips with
  | nil => intro s; rfl
  | cons e rest ih =>
    intro s
    cases hb : badArchive e
    · simp only [List.filter_cons, hb, Bool.not_false, if_pos]
      simp only [runLoop]
      exact ih (processOne s e).1
    · simp only [List.filter_cons, hb, Bool.not_true, Bool.false_eq_true, if_neg,
        not_false_eq_true]
      simp only [runLoop]
      rw [processOne_bad_state s e hb]
      exact ih s

theorem runLoop_sub_events (zips : List DirEntry) :
    ∀ (s : Dest × Nat) (e : DirEntry), e ∈ zips →
      ∀ ev ∈ (processOne s e).2, ev ∈ (runLoop s zips).2 := by
  induction zips with
  | nil => intro s e he; cases he
  | cons f rest ih =>
    intro s e he ev hev
    simp only [runLoop, List.mem_append]
    rcases List.mem_cons.mp he with rfl | he2
    · exact Or.inl hev
    · refine Or.inr (ih (processOne s f).1 e he2 ev ?_)
      rwa [processOne_events_state (processOne s f).1 s e]

/-- C1: a located archive that is not a well-formed ZIP or fails testzip is
skipped with a logged reason, the running state is untouched by it, and
every other archive is still processed: the loop result over any batch
equals the result over the batch with the bad archives removed, every bad
archive leaves a skip message in the trace, and every archive of the batch
is processed. -/
theorem c1_bad_archives_skipped_batch_continues (s : Dest × Nat) (zips : List DirEntry) :
    (runLoop s zips).1 = (runLoop s (zips.filter (fun e => !badArchive e))).1
    ∧ (∀ e ∈ zips, badArchive e = true →
        Event.skipBadZip e.name ∈ (runLoop s zips).2 ∨
          Event.skipCorrupt e.name ∈ (runLoop s zips).2)
    ∧ (∀ e ∈ zips, Event.procArchive e.name ∈ (runLoop s zips).2) := by
  refine ⟨runLoop_state_filter_bad zips s, ?_, ?_⟩
  · intro e he hb
    rcases processOne_bad_events s e hb with h | h
    · exact Or.inl (runLoop_sub_events zips s e he _ h)
    · exact Or.inr (runLoop_sub_events zips s e he _ h)
  · intro e he
    exact runLoop_sub_events zips s e he _ (processOne_proc_mem s e)

theorem processOne_valid (s : Dest × Nat) (e : DirEntry) (h : validNoFault e = true) :
    processOne s e =
      ((writeEntries s.1 e.archive.entries, s.2 + nonDirCount e.archive),
       [.procArchive e.name, .openZip e.name, .closeZip e.name,
        .openZip e.name, .extracted e.name (nonDirCount e.archive), .closeZip e.name]) := by
  have h2 := h
  unfold validNoFault at h2
  obtain ⟨⟨⟨hf, hw⟩, hb⟩, hk⟩ := by
    simpa only [Bool.and_eq_true] using h2
  simp [processOne, hf, hw, Option.isNone_iff_eq_none.mp hb,
    Option.isNone_iff_eq_none.mp hk]

theorem runLoop_total (zips : List DirEntry) :
    ∀ s : Dest × Nat, (∀ e ∈ zips, validNoFault e = true) →
      (runLoop s zips).1.2 = s.2 + (zips.map (fun e => nonDirCount e.archive)).sum := by
  induction zips with
  | nil => intro s _; simp [runLoop]
  | cons e rest ih =>
    intro s h
    have he : validNoFault e = true := h e (List.mem_cons_self e rest)
    simp only [runLoop, List.map_cons, List.sum_cons]
    rw [processOne_valid s e he]
    rw [ih _ (fun f hf => h f (List.mem_cons_of_mem e hf))]
    simp [Nat.add_assoc]

/-- C2: for a batch of valid archives (well-formed ZIPs that pass testzip
and extract without an I/O fault) with pairwise disjoint internal paths,
the running count reported at the end of the run equals the sum over the
located archives of their internal entries not ending in a slash. -/
theorem c2_reported_count_is_sum (inp : Input)
    (hd : inp.dirExists = true) (hp : hasPerms inp = true)
    (hv : ∀ e ∈ locate inp.listing, validNoFault e = true)
    (_hdisj : pairwiseDisjoint (locate inp.listing) = true) :
    (batch_unzip inp).total =
      ((locate inp.listing).map (fun e => nonDirCount e.archive)).sum := by
  by_cases hz : (locate inp.listing).isEmpty
  · simp [batch_unzip, hd, hp, hz, List.isEmpty_iff.mp hz]
  · have ht := runLoop_total (locate inp.listing) ([], 0) hv
    cases hpa : inp.pdfAvail <;>
      simp [batch_unzip, hd, hp, hz, hpa, ht]

/-- C10: per-archive extraction is not atomic: when extractall raises
after the first k members of an archive that passed the integrity check
were written, those members stay in the destination, the error is
absorbed into a logged extract-error event, the count is not increased,
and the loop continues with the remaining archives from that state. -/
theorem c10_partial_extraction_kept (s : Dest × Nat) (e : DirEntry)
    (rest : List DirEntry) (k : Nat)
    (hf : e.isFile = true) (hw : e.archive.wellFormed = true)
    (hb : e.archive.firstBad = none) (hk : e.archive.extractFault = some k) :
    (processOne s e).1 = (writeEntries s.1 (e.archive.entries.take k), s.2)
    ∧ Event.extractError e.name ∈ (processOne s e).2
    ∧ runLoop s (e :: rest) =
        ((runLoop (writeEntries s.1 (e.archive.entries.take k), s.2) rest).1,
         (processOne s e).2 ++
           (runLoop (writeEntries s.1 (e.archive.entries.take k), s.2) rest).2) := by
  have hp : processOne s e =
      ((writeEntries s.1 (e.archive.entries.take k), s.2),
       [.procArchive e.name, .openZip e.name, .closeZip e.name,
        .openZip e.name, .closeZip e.name, .extractError e.name]) := by
    simp [processOne, hf, hw, hb, hk]
  refine ⟨by rw [hp], by rw [hp]; simp, ?_⟩
  simp only [runLoop]
  rw [hp]

theorem processOne_event_kinds (s : Dest × Nat) (e : DirEntry) :
    ((processOne s e).2).all isLoopEvent = true := by
  cases hf : e.isFile <;> cases hw : e.archive.wellFormed <;>
    cases hb : e.archive.firstBad <;> cases hk : e.archive.extractFault <;>
      simp [processOne, hf, hw, hb, hk, isLoopEvent]

theorem runLoop_event_kinds (zips : List DirEntry) :
    ∀ s : Dest × Nat, ((runLoop s zips).2).all isLoopEvent = true := by
  induction zips with
  | nil => intro s; rfl
  | cons e rest ih =>
    intro s
    simp only [runLoop, List.all_append]
    simp [processOne_event_kinds s e, ih (processOne s e).1]

theorem appendAll_event_kinds (l : List (String × FileData)) :
    ((appendAll l).2).all isMergeEvent = true := by
  induction l with
  | nil => rfl
  | cons c rest ih =>
    cases hok : c.2.pdfOk <;> simp [appendAll, hok, isMergeEvent, ih]

theorem combine_pdfs_event_kinds (wf : Bool) (d : Dest) :
    ((combine_pdfs wf d).events).all isMergeEvent = true := by
  by_cases hc : (pdfCandidates d).isEmpty
  · simp [combine_pdfs, hc, isMergeEvent]
  · cases wf <;>
      simp [combine_pdfs, hc, isMergeEvent, appendAll_event_kinds]

theorem not_mem_of_all_kinds (l : List Event) (p : Event → Bool) (a : Event)
    (hall : l.all p = true) (ha : p a = false) : a ∉ l := by
  intro hmem
  have h2 := List.all_eq_true.mp hall a hmem
  simp [ha] at h2

theorem count_zero_of_all_kinds (l : List Event) (p : Event → Bool) (a : Event)
    (hall : l.all p = true) (ha : p a = false) : l.count a = 0 :=
  List.count_eq_zero.mpr (not_mem_of_all_kinds l p a hall ha)

/-- C3: in every run that reaches the extraction loop, the destination is
created exactly once, the leftover destination is removed exactly when one
existed, everything in the trace before the creation is that conditional
removal (in particular no archive is processed before it), the recorded
destination is the loop result over the empty map, and the content the
destination held before the run does not influence the result. -/
theorem c3_dest_recreated_once_before_processing (inp : Input)
    (h : reachesExtraction inp = true) :
    ((batch_unzip inp).events.count Event.createDest = 1)
    ∧ ((batch_unzip inp).events.count Event.removeDest
         = if inp.destExists then 1 else 0)
    ∧ ((batch_unzip inp).events.takeWhile (fun ev => !isCreateDestE ev)
         = if inp.destExists then [Event.removeDest] else [])
    ∧ (batch_unzip inp).dest = some ((runLoop ([], 0) (locate inp.listing)).1.1)
    ∧ batch_unzip { inp with priorDest := [] } = batch_unzip inp := by
  obtain ⟨⟨hd, hp⟩, hz0⟩ : (inp.dirExists = true ∧ hasPerms inp = true)
      ∧ ¬locate inp.listing = [] := by
    simpa [reachesExtraction] using h
  have hz : (locate inp.listing).isEmpty = false := by
    cases hh : (locate inp.listing).isEmpty
    · rfl
    · exact absurd (List.isEmpty_iff.mp hh) hz0
  have hloop := runLoop_event_kinds (locate inp.listing) ([], 0)
  have hcl : (runLoop ([], 0) (locate inp.listing)).2.count Event.createDest = 0 :=
    count_zero_of_all_kinds _ _ _ hloop rfl
  have hrl : (runLoop ([], 0) (locate inp.listing)).2.count Event.removeDest = 0 :=
    count_zero_of_all_kinds _ _ _ hloop rfl
  have hcm := fun wf d => count_zero_of_all_kinds _ _ Event.createDest
    (combine_pdfs_event_kinds wf d) rfl
  have hrm := fun wf d => count_zero_of_all_kinds _ _ Event.removeDest
    (combine_pdfs_event_kinds wf d) rfl
  refine ⟨?_, ?_, ?_, ?_, ?_⟩
  · cases hde : inp.destExists <;> cases hpa : inp.pdfAvail <;>
      simp [batch_unzip, hd, hp, hz, hde, hpa, List.count_append, List.count_cons,
        hcl, hcm]
  · cases hde : inp.destExists <;> cases hpa : inp.pdfAvail <;>
      simp [batch_unzip, hd, hp, hz, hde, hpa, List.count_append, List.count_cons,
        hrl, hrm]
  · cases hde : inp.destExists <;> cases hpa : inp.pdfAvail <;>
      simp [batch_unzip, hd, hp, hz, hde, hpa, List.takeWhile, isCreateDestE]
  · cases hpa : inp.pdfAvail <;> simp [batch_unzip, hd, hp, hz, hpa]
  · rfl

/-- Witness for C1 on a batch with one bad archive between two good ones. -/
theorem c1_witness :
    ((runLoop ([], 0) [entA, entB, entC]).1
       = (runLoop ([], 0) ([entA, entB, entC].filter (fun e => !badArchive e))).1)
    ∧ (Event.skipBadZip entB.name ∈ (runLoop ([], 0) [entA, entB, entC]).2
       ∨ Event.skipCorrupt entB.name ∈ (runLoop ([], 0) [entA, entB, entC]).2)
    ∧ Event.procArchive entC.name ∈ (runLoop ([], 0) [entA, entB, entC]).2 :=
  ⟨(c1_bad_archives_skipped_batch_continues ([], 0) [entA, entB, entC]).1,
   (c1_bad_archives_skipped_batch_continues ([], 0) [entA, entB, entC]).2.1 entB
     (by decide) (by decide),
   (c1_bad_archives_skipped_batch_continues ([], 0) [entA, entB, entC]).2.2 entC
     (by decide)⟩

/-- Witness for C2 on a run over two valid disjoint archives. -/
theorem c2_witness :
    (inpValid.dirExists = true ∧ hasPerms inpValid = true
      ∧ (∀ e ∈ locate inpValid.listing, validNoFault e = true)
      ∧ pairwiseDisjoint (locate inpValid.listing) = true)
    ∧ (batch_unzip inpValid).total
        = ((locate inpValid.listing).map (fun e => nonDirCount e.archive)).sum :=
  ⟨⟨rfl, rfl, by decide, by decide⟩,
   c2_reported_count_is_sum inpValid rfl rfl (by decide) (by decide)⟩

/-- Witness for C10 on an archive whose extraction faults after one member. -/
theorem c10_witness :
    ((processOne (([] : Dest), 0) entFault).1
       = (writeEntries ([] : Dest) (entFault.archive.entries.take 1), 0))
    ∧ Event.extractError entFault.name ∈ (processOne (([] : Dest), 0) entFault).2
    ∧ runLoop (([] : Dest), 0) (entFault :: [entC])
        = ((runLoop (writeEntries ([] : Dest) (entFault.archive.entries.take 1), 0)
              [entC]).1,
           (processOne (([] : Dest), 0) entFault).2 ++
             (runLoop (writeEntries ([] : Dest) (entFault.archive.entries.take 1), 0)
               [entC]).2) :=
  c10_partial_extraction_kept (([] : Dest), 0) entFault [entC] 1 rfl rfl rfl rfl

/-- Witness for C3 on a concrete run with a leftover destination. -/
theorem c3_witness :
    reachesExtraction inpMix = true
    ∧ (((batch_unzip inpMix).events.count Event.createDest = 1)
       ∧ ((batch_unzip inpMix).events.count Event.removeDest
            = if inpMix.destExists then 1 else 0)
       ∧ ((batch_unzip inpMix).events.takeWhile (fun ev => !isCreateDestE ev)
            = if inpMix.destExists then [Event.removeDest] else [])
       ∧ (batch_unzip inpMix).dest
            = some ((runLoop ([], 0) (locate inpMix.listing)).1.1)
       ∧ batch_unzip { inpMix with priorDest := [] } = batch_unzip inpMix) :=
  ⟨by decide, c3_dest_recreated_once_before_processing inpMix (by decide)⟩

theorem appendAll_all_ok (l : List (String × FileData))
    (h : ∀ c ∈ l, c.2.pdfOk = true) :
    (appendAll l).1 = (l.map (fun c => List.replicate c.2.pdfPages c.1)).flatten := by
  induction l with
  | nil => rfl
  | cons c rest ih =>
    have hc : c.2.pdfOk = true := h c (List.mem_cons_self c rest)
    simp [appendAll, hc, ih (fun x hx => h x (List.mem_cons_of_mem c hx))]

theorem pages_length (l : List (String × FileData)) :
    ((l.map (fun c => List.replicate c.2.pdfPages c.1)).flatten).length
      = (l.map (fun c => c.2.pdfPages)).sum := by
  induction l with
  | nil => rfl
  | cons c rest ih => simp [ih]

/-- C4: with no PDF candidate under the destination the merge stage only
reports and creates no output; with candidates that all append cleanly the
output pages are the concatenation of each candidate's pages in sorted
order, so the page count is the sum of the candidates' page counts; and
the candidate list is exactly the case-insensitive ".pdf" files of the
destination in ascending lexicographic full-path order. -/
theorem c4_merge_empty_skip_else_page_sum (d : Dest)
    (hok : ∀ c ∈ pdfCandidates d, c.2.pdfOk = true) :
    (pdfCandidates d = [] →
       combine_pdfs false d = ⟨[Event.mergeStart, Event.mergeNoPdfs], none⟩)
    ∧ (pdfCandidates d ≠ [] →
        (combine_pdfs false d).output
          = some (((pdfCandidates d).map
                (fun c => List.replicate c.2.pdfPages c.1)).flatten)
        ∧ (∀ pages, (combine_pdfs false d).output = some pages →
            pages.length = ((pdfCandidates d).map (fun c => c.2.pdfPages)).sum))
    ∧ List.Sorted candLe (pdfCandidates d)
    ∧ (pdfCandidates d).Perm (d.filter (fun x => ciPdf x.1)) := by
  refine ⟨?_, ?_, ?_, ?_⟩
  · intro hnil
    simp [combine_pdfs, hnil]
  · intro hne
    have hE : (pdfCandidates d).isEmpty = false := by
      cases hh : (pdfCandidates d).isEmpty
      · rfl
      · exact absurd (List.isEmpty_iff.mp hh) hne
    have hpages := appendAll_all_ok (pdfCandidates d) hok
    have hout : (combine_pdfs false d).output
        = some (((pdfCandidates d).map
              (fun c => List.replicate c.2.pdfPages c.1)).flatten) := by
      simp [combine_pdfs, hE, hpages]
    refine ⟨hout, ?_⟩
    intro pages hpg
    rw [hout] at hpg
    obtain rfl : _ = pages := Option.some.inj hpg
    exact pages_length (pdfCandidates d)
  · haveI : IsTotal (String × FileData) candLe :=
      ⟨fun a b => lexLe_total a.1.data b.1.data⟩
    haveI : IsTrans (String × FileData) candLe :=
      ⟨fun _ _ _ h1 h2 => lexLe_trans h1 h2⟩
    exact List.sorted_insertionSort candLe _
  · exact List.perm_insertionSort candLe _

/-- Witness for C4 on a destination holding two well-behaved PDFs. -/
theorem c4_witness :
    (∀ c ∈ pdfCandidates destTwoPdf, c.2.pdfOk = true) ∧
    ((pdfCandidates destTwoPdf = [] →
       combine_pdfs false destTwoPdf = ⟨[Event.mergeStart, Event.mergeNoPdfs], none⟩)
    ∧ (pdfCandidates destTwoPdf ≠ [] →
        (combine_pdfs false destTwoPdf).output
          = some (((pdfCandidates destTwoPdf).map
                (fun c => List.replicate c.2.pdfPages c.1)).flatten)
        ∧ (∀ pages, (combine_pdfs false destTwoPdf).output = some pages →
            pages.length
              = ((pdfCandidates destTwoPdf).map (fun c => c.2.pdfPages)).sum))
    ∧ List.Sorted candLe (pdfCandidates destTwoPdf)
    ∧ (pdfCandidates destTwoPdf).Perm
        (destTwoPdf.filter (fun x => ciPdf x.1))) :=
  ⟨by decide, c4_merge_empty_skip_else_page_sum destTwoPdf (by decide)⟩

theorem lookupDest_cons (x : String × FileData) (xs : Dest) (p : String) :
    lookupDest (x :: xs) p = if x.1 = p then some x.2 else lookupDest xs p := by
  by_cases h : x.1 = p
  · simp [lookupDest, List.find?_cons_of_pos, h]
  · simp [lookupDest, List.find?_cons_of_neg, h]

theorem lookupDest_append (d1 d2 : Dest) (p : String) :
    lookupDest (d1 ++ d2) p = (lookupDest d1 p).or (lookupDest d2 p) := by
  unfold lookupDest
  rw [List.find?_append]
  cases List.find? (fun x => x.1 = p) d1 <;> simp

theorem lookup_overwrite_map_ne (d : Dest) (q p : String) (c : FileData)
    (hpq : p ≠ q) :
    lookupDest (d.map (fun x => if x.1 = q then (q, c) else x)) p
      = lookupDest d p := by
  induction d with
  | nil => rfl
  | cons x xs ih =>
    by_cases hx : x.1 = q
    · rw [List.map_cons, if_pos hx, lookupDest_cons, lookupDest_cons, hx]
      simp [Ne.symm hpq, ih]
    · rw [List.map_cons, if_neg hx, lookupDest_cons, lookupDest_cons]
      by_cases hp : x.1 = p
      · simp [hp]
      · simp [hp, ih]

theorem lookup_overwrite_map_same (d : Dest) (q : String) (c : FileData)
    (h : d.any (fun x => x.1 = q) = true) :
    lookupDest (d.map (fun x => if x.1 = q then (q, c) else x)) q = some c := by
  induction d with
  | nil => cases h
  | cons x xs ih =>
    by_cases hx : x.1 = q
    · rw [List.map_cons, if_pos hx, lookupDest_cons]
      simp
    · have h2 : xs.any (fun x => x.1 = q) = true := by
        simpa [List.any_cons, hx] using h
      rw [List.map_cons, if_neg hx, lookupDest_cons]
      simp [hx, ih h2]

theorem lookupDest_writeFile (d : Dest) (q p : String) (c : FileData) :
    lookupDest (writeFile d q c) p = if p = q then some c else lookupDest d p := by
  by_cases hany : d.any (fun x => x.1 = q) = true
  · by_cases hpq : p = q
    · subst hpq
      simp [writeFile, hany, lookup_overwrite_map_same d p c hany]
    · simp [writeFile, hany, lookup_overwrite_map_ne d q p c hpq, hpq]
  · have hany2 : d.any (fun x => x.1 = q) = false := by
      cases hh : d.any (fun x => x.1 = q)
      · rfl
      · exact absurd hh hany
    have hnone : lookupDest d q = none := by
      unfold lookupDest
      rw [List.find?_eq_none.mpr]
      · rfl
      · intro x hx
        simpa using List.any_eq_false.mp hany2 x hx
    rw [writeFile, if_neg (by simp [hany]), lookupDest_append]
    by_cases hpq : p = q
    · subst hpq
      rw [hnone, lookupDest_cons]
      simp
    · rw [lookupDest_cons, if_neg (fun hqp => hpq hqp.symm), if_neg hpq]
      cases lookupDest d p <;> rfl

theorem lookupDest_writeEntry (d : Dest) (e : ZEntry) (p : String) :
    lookupDest (writeEntry d e) p
      = if "/".data.isSuffixOf e.path.data = false ∧ e.path = p
        then some e.data else lookupDest d p := by
  cases hdir : "/".data.isSuffixOf e.path.data
  · rw [writeEntry, if_neg (by simp [hdir]), lookupDest_writeFile]
    by_cases hp : e.path = p
    · subst hp; simp
    · rw [if_neg (fun hh : p = e.path => hp hh.symm), if_neg (fun hc => hp hc.2)]
  · rw [writeEntry, if_pos (by simp [hdir])]
    simp [hdir]

theorem lookupDest_writeEntries (es : List ZEntry) :
    ∀ (d : Dest) (p : String),
      lookupDest (writeEntries d es) p
        = (lookupDest (writeEntries [] es) p).or (lookupDest d p) := by
  induction es with
  | nil =>
    intro d p
    simp [writeEntries, lookupDest]
  | cons e es ih =>
    intro d p
    show lookupDest (writeEntries (writeEntry d e) es) p = _
    rw [ih (writeEntry d e) p]
    have hr : lookupDest (writeEntries [] (e :: es)) p
        = (lookupDest (writeEntries [] es) p).or (lookupDest (writeEntry [] e) p) := by
      show lookupDest (writeEntries (writeEntry [] e) es) p = _
      rw [ih (writeEntry [] e) p]
    rw [hr]
    cases hA : lookupDest (writeEntries [] es) p
    · rw [Option.none_or, Option.none_or, lookupDest_writeEntry, lookupDest_writeEntry]
      by_cases hc : "/".data.isSuffixOf e.path.data = false ∧ e.path = p
      · rw [if_pos hc, if_pos hc]; rfl
      · rw [if_neg hc, if_neg hc]
        show lookupDest d p = (lookupDest ([] : Dest) p).or (lookupDest d p)
        rfl
    · rfl

/-- C5 counterexample: archives b.zip (path p.txt with content B) and
a.zip (path p.txt with content A) listed in the order b.zip, a.zip.  The
archive later in sort order is b.zip, yet the final content of p.txt is
the content A of a.zip, the archive processed later in listing order: the
code never sorts the located archives. -/
theorem c5_counterexample :
    lexLe entPA.name.data entPB.name.data = true
    ∧ ¬entPA.name = entPB.name
    ∧ lookupDest ((runLoop (([] : Dest), 0) (locate inpDup.listing)).1.1) "p.txt"
        = some (fdTxt "A")
    ∧ lookupDest (writeEntries [] entPB.archive.entries) "p.txt" = some (fdTxt "B")
    ∧ ¬fdTxt "A" = fdTxt "B" := by decide

/-- C5 amended: when two archives of the batch contain the same internal
relative path, extraction overwrites silently and the final content of
that path equals the content from the archive processed later in the
order produced by the locator (the directory listing order, which the
code does not sort). -/
theorem c5_later_in_processing_order_wins (e1 e2 : DirEntry) (p : String)
    (c2 : FileData)
    (h1 : validNoFault e1 = true) (h2 : validNoFault e2 = true)
    (hc2 : lookupDest (writeEntries [] e2.archive.entries) p = some c2) :
    lookupDest ((runLoop (([] : Dest), 0) [e1, e2]).1.1) p = some c2 := by
  have hst : (runLoop (([] : Dest), 0) [e1, e2]).1.1
      = writeEntries (writeEntries [] e1.archive.entries) e2.archive.entries := by
    simp only [runLoop]
    rw [processOne_valid _ e1 h1]
    rw [processOne_valid _ e2 h2]
  rw [hst, lookupDest_writeEntries, hc2]
  rfl

/-- Witness for C5 amended on the two colliding fixture archives. -/
theorem c5_witness :
    (validNoFault entPB = true ∧ validNoFault entPA = true
      ∧ lookupDest (writeEntries [] entPA.archive.entries) "p.txt"
          = some (fdTxt "A"))
    ∧ lookupDest ((runLoop (([] : Dest), 0) [entPB, entPA]).1.1) "p.txt"
        = some (fdTxt "A") :=
  ⟨⟨by decide, by decide, by decide⟩,
   c5_later_in_processing_order_wins entPB entPA "p.txt" (fdTxt "A")
     (by decide) (by decide) (by decide)⟩

/-- C6 counterexample: a directory (not a file) named sub.zip is returned
by the locator through the glob fallback although the set of regular
files with a case-insensitive ".zip" suffix is empty. -/
theorem c6_counterexample :
    listdirZips [entDir] = []
    ∧ locate [entDir] = [entDir]
    ∧ entDir.isFile = false := by decide

/-- C6 amended: whenever at least one regular file directly in the target
directory has a case-insensitive ".zip" suffix, the locator returns
exactly those files; only when no such file exists can the fallback
methods return directory entries named like ZIP files. -/
theorem c6_locator_exact_when_zip_file_present (listing : List DirEntry)
    (h : ¬listdirZips listing = []) :
    locate listing = listdirZips listing := by
  have hne : (listdirZips listing).isEmpty = false := by
    cases hh : (listdirZips listing).isEmpty
    · rfl
    · exact absurd (List.isEmpty_iff.mp hh) h
  simp [locate, hne]

/-- Witness for C6 amended on a listing holding one regular ZIP file. -/
theorem c6_witness :
    ¬listdirZips [entA] = []
    ∧ locate [entA] = listdirZips [entA] :=
  ⟨by decide, c6_locator_exact_when_zip_file_present [entA] (by decide)⟩

theorem ciZip_of_csZip (s : String) (h : csZip s = true) : ciZip s = true := by
  unfold csZip at h
  unfold ciZip lowerName
  obtain ⟨t, ht⟩ := List.isSuffixOf_iff_suffix.mp h
  refine List.isSuffixOf_iff_suffix.mpr ⟨t.map Char.toLower, ?_⟩
  have hmap : (".zip".data.map Char.toLower) = ".zip".data := by decide
  rw [← hmap, ← List.map_append, ht]

theorem locate_nil_of_ciZips_nil (listing : List DirEntry)
    (h : ciZips listing = []) : locate listing = [] := by
  have hall : ∀ e ∈ listing, ¬(ciZip e.name = true) := List.filter_eq_nil_iff.mp h
  have h1 : listdirZips listing = [] := by
    apply List.filter_eq_nil_iff.mpr
    intro e he hcontra
    cases hcz : ciZip e.name
    · simp [hcz] at hcontra
    · exact hall e he hcz
  have h2 : globZips listing = [] := by
    apply List.filter_eq_nil_iff.mpr
    intro e he hcontra
    cases hcs : csZip e.name
    · simp [hcs] at hcontra
    · exact hall e he (ciZip_of_csZip _ hcs)
  simp [locate, h1, h2, h]

/-- C7 counterexample: the target directory holds only a directory named
sub.zip, so zero ".zip" files exist, yet the run does not abort: the glob
fallback picks up the directory and the extraction destination is
created. -/
theorem c7_counterexample :
    listdirZips inpDirZip.listing = []
    ∧ Event.createDest ∈ (batch_unzip inpDirZip).events
    ∧ ¬(batch_unzip inpDirZip).dest = none := by decide

/-- C7 amended: a run whose target directory is missing, whose directory
lacks a permission, or whose listing holds no entry at all (file or
directory) with a case-insensitive ".zip" suffix aborts with exactly one
fatal message, never creates the extraction destination, reports a zero
count and writes no merged output. -/
theorem c7_fatal_setup_aborts_without_sideeffects (inp : Input)
    (h : inp.dirExists = false ∨ hasPerms inp = false ∨ ciZips inp.listing = []) :
    ((batch_unzip inp).events = [Event.fatalNoDir]
      ∨ (batch_unzip inp).events = [Event.fatalPerms]
      ∨ (batch_unzip inp).events = [Event.fatalNoZips])
    ∧ (batch_unzip inp).dest = none
    ∧ (batch_unzip inp).total = 0
    ∧ (batch_unzip inp).merged = none := by
  rcases h with hd | hp | hz
  · simp [batch_unzip, hd]
  · cases hd : inp.dirExists
    · simp [batch_unzip, hd]
    · simp [batch_unzip, hd, hp]
  · cases hd : inp.dirExists
    · simp [batch_unzip, hd]
    · cases hp : hasPerms inp
      · simp [batch_unzip, hd, hp]
      · have hloc : (locate inp.listing).isEmpty = true := by
          simp [List.isEmpty_iff, locate_nil_of_ciZips_nil inp.listing hz]
        simp [batch_unzip, hd, hp, hloc]

/-- Witness for C7 amended on a run with a missing target directory. -/
theorem c7_witness :
    (inpNoDir.dirExists = false ∨ hasPerms inpNoDir = false
      ∨ ciZips inpNoDir.listing = [])
    ∧ (((batch_unzip inpNoDir).events = [Event.fatalNoDir]
        ∨ (batch_unzip inpNoDir).events = [Event.fatalPerms]
        ∨ (batch_unzip inpNoDir).events = [Event.fatalNoZips])
       ∧ (batch_unzip inpNoDir).dest = none
       ∧ (batch_unzip inpNoDir).total = 0
       ∧ (batch_unzip inpNoDir).merged = none) :=
  ⟨Or.inl rfl, c7_fatal_setup_aborts_without_sideeffects inpNoDir (Or.inl rfl)⟩

theorem appendAll_append_only (l : List (String × FileData)) :
    ((appendAll l).2).all isAppendEvent = true := by
  induction l with
  | nil => rfl
  | cons c rest ih =>
    cases hok : c.2.pdfOk <;> simp [appendAll, hok, isAppendEvent, ih]

theorem appendAll_mem_events (l : List (String × FileData)) :
    ∀ c ∈ l, (c.2.pdfOk = false → Event.appendError c.1 ∈ (appendAll l).2)
           ∧ (c.2.pdfOk = true → Event.appendOk c.1 ∈ (appendAll l).2) := by
  induction l with
  | nil => intro c hc; cases hc
  | cons x rest ih =>
    intro c hc
    rcases List.mem_cons.mp hc with rfl | hc2
    · refine ⟨fun h => ?_, fun h => ?_⟩
      · simp [appendAll, h]
      · simp [appendAll, h]
    · refine ⟨fun h => ?_, fun h => ?_⟩
      · have hm := (ih c hc2).1 h
        cases hok : x.2.pdfOk <;> simp [appendAll, hok, hm]
      · have hm := (ih c hc2).2 h
        cases hok : x.2.pdfOk <;> simp [appendAll, hok, hm]

theorem countP_zero_of_all_kinds (l : List Event) (p q : Event → Bool)
    (hall : l.all p = true) (hpq : ∀ ev, p ev = true → q ev = false) :
    l.countP q = 0 := by
  refine List.countP_eq_zero.mpr ?_
  intro a ha hqa
  have hpa := List.all_eq_true.mp hall a ha
  rw [hpq a hpa] at hqa
  cases hqa

/-- C8 counterexample: a destination holding only a PDF whose append
raises.  No append succeeds, yet merger.write still runs and merged.pdf
is produced (an output with zero pages), so the output file is present
without any successfully appended candidate. -/
theorem c8_counterexample :
    pdfCandidates destBadPdf = [("bad.pdf", fdPdfBad)]
    ∧ (combine_pdfs false destBadPdf).events.countP isAppendOkE = 0
    ∧ Event.appendError "bad.pdf" ∈ (combine_pdfs false destBadPdf).events
    ∧ (combine_pdfs false destBadPdf).output = some [] := by decide

/-- C8 amended: a candidate that fails to append is logged and skipped
while the merge continues with the remaining candidates, and merged.pdf
is present exactly when at least one PDF candidate was found and the
final write did not fault, regardless of how many appends succeeded. -/
theorem c8_append_failures_skipped_output_iff_candidates (wf : Bool) (d : Dest) :
    (∀ c ∈ pdfCandidates d, c.2.pdfOk = false →
        Event.appendError c.1 ∈ (combine_pdfs wf d).events)
    ∧ (∀ c ∈ pdfCandidates d, c.2.pdfOk = true →
        Event.appendOk c.1 ∈ (combine_pdfs wf d).events)
    ∧ ((combine_pdfs false d).output
        = if (pdfCandidates d).isEmpty then none
          else some ((appendAll (pdfCandidates d)).1))
    ∧ (¬(combine_pdfs wf d).output = none
        ↔ ((pdfCandidates d).isEmpty = false ∧ wf = false)) := by
  have hmem : ∀ c ∈ pdfCandidates d, (pdfCandidates d).isEmpty = false := by
    intro c hc
    cases hh : (pdfCandidates d).isEmpty
    · rfl
    · rw [List.isEmpty_iff.mp hh] at hc; cases hc
  refine ⟨?_, ?_, ?_, ?_⟩
  · intro c hc hbad
    have hE := hmem c hc
    have hev := (appendAll_mem_events (pdfCandidates d) c hc).1 hbad
    cases wf <;> simp [combine_pdfs, hE, hev]
  · intro c hc hok
    have hE := hmem c hc
    have hev := (appendAll_mem_events (pdfCandidates d) c hc).2 hok
    cases wf <;> simp [combine_pdfs, hE, hev]
  · cases hE : (pdfCandidates d).isEmpty <;> simp [combine_pdfs, hE]
  · cases hE : (pdfCandidates d).isEmpty <;> cases wf <;>
      simp [combine_pdfs, hE]

/-- Witness for C8 amended on the corrupt-candidate destination. -/
theorem c8_witness :
    Event.appendError "bad.pdf" ∈ (combine_pdfs false destBadPdf).events
    ∧ (¬(combine_pdfs false destBadPdf).output = none
        ↔ ((pdfCandidates destBadPdf).isEmpty = false ∧ false = false)) :=
  ⟨(c8_append_failures_skipped_output_iff_candidates false destBadPdf).1
     ("bad.pdf", fdPdfBad) (by decide) (by decide),
   (c8_append_failures_skipped_output_iff_candidates false destBadPdf).2.2.2⟩

theorem processOne_zip_balanced (s : Dest × Nat) (e : DirEntry) :
    (processOne s e).2.countP isOpenZipE
      = (processOne s e).2.countP isCloseZipE := by
  cases hf : e.isFile <;> cases hw : e.archive.wellFormed <;>
    cases hb : e.archive.firstBad <;> cases hk : e.archive.extractFault <;>
      simp [processOne, hf, hw, hb, hk, List.countP_cons, isOpenZipE, isCloseZipE]

theorem runLoop_zip_balanced (zips : List DirEntry) :
    ∀ s : Dest × Nat,
      (runLoop s zips).2.countP isOpenZipE
        = (runLoop s zips).2.countP isCloseZipE := by
  induction zips with
  | nil => intro s; rfl
  | cons e rest ih =>
    intro s
    simp only [runLoop, List.countP_append]
    rw [processOne_zip_balanced, ih]

theorem combine_pdfs_merger_balanced (d : Dest) :
    (combine_pdfs false d).events.countP isOpenMergerE
      = (combine_pdfs false d).events.countP isCloseMergerE := by
  have hz1 : ((appendAll (pdfCandidates d)).2).countP isOpenMergerE = 0 :=
    countP_zero_of_all_kinds _ isAppendEvent _ (appendAll_append_only _)
      (fun ev => by cases ev <;> simp [isAppendEvent, isOpenMergerE])
  have hz2 : ((appendAll (pdfCandidates d)).2).countP isCloseMergerE = 0 :=
    countP_zero_of_all_kinds _ isAppendEvent _ (appendAll_append_only _)
      (fun ev => by cases ev <;> simp [isAppendEvent, isCloseMergerE])
  cases hE : (pdfCandidates d).isEmpty <;>
    simp [combine_pdfs, hE, List.countP_append, List.countP_cons,
      isOpenMergerE, isCloseMergerE, hz1, hz2]

/-- C9 amended: in every run each opened zip handle is matched by a
release, on success and failure paths alike; the merger handle is matched
by a release whenever merger.write does not fault, while a faulting write
skips the close (the original claim fails on that path). -/
theorem c9_zip_handles_balanced_merger_close_on_success (inp : Input) :
    ((batch_unzip inp).events.countP isOpenZipE
       = (batch_unzip inp).events.countP isCloseZipE)
    ∧ (inp.writeFault = false →
        (batch_unzip inp).events.countP isOpenMergerE
          = (batch_unzip inp).events.countP isCloseMergerE) := by
  have hloopO := runLoop_zip_balanced (locate inp.listing) (([] : Dest), 0)
  have hmergeOZ : ∀ (wf : Bool) (d : Dest),
      (combine_pdfs wf d).events.countP isOpenZipE = 0 := fun wf d =>
    countP_zero_of_all_kinds _ isMergeEvent _ (combine_pdfs_event_kinds wf d)
      (fun ev => by cases ev <;> simp [isMergeEvent, isOpenZipE])
  have hmergeCZ : ∀ (wf : Bool) (d : Dest),
      (combine_pdfs wf d).events.countP isCloseZipE = 0 := fun wf d =>
    countP_zero_of_all_kinds _ isMergeEvent _ (combine_pdfs_event_kinds wf d)
      (fun ev => by cases ev <;> simp [isMergeEvent, isCloseZipE])
  have hloopOM : (runLoop (([] : Dest), 0) (locate inp.listing)).2.countP
      isOpenMergerE = 0 :=
    countP_zero_of_all_kinds _ isLoopEvent _
      (runLoop_event_kinds (locate inp.listing) (([] : Dest), 0))
      (fun ev => by cases ev <;> simp [isLoopEvent, isOpenMergerE])
  have hloopCM : (runLoop (([] : Dest), 0) (locate inp.listing)).2.countP
      isCloseMergerE = 0 :=
    countP_zero_of_all_kinds _ isLoopEvent _
      (runLoop_event_kinds (locate inp.listing) (([] : Dest), 0))
      (fun ev => by cases ev <;> simp [isLoopEvent, isCloseMergerE])
  constructor
  · cases hd : inp.dirExists
    · simp [batch_unzip, hd, List.countP_cons, isOpenZipE, isCloseZipE,
        isOpenMergerE, isCloseMergerE]
    · cases hp : hasPerms inp
      · simp [batch_unzip, hd, hp, List.countP_cons, isOpenZipE, isCloseZipE,
          isOpenMergerE, isCloseMergerE]
      · cases hz : (locate inp.listing).isEmpty
        · cases hde : inp.destExists <;> cases hpa : inp.pdfAvail <;>
            simp [batch_unzip, hd, hp, hz, hde, hpa, List.countP_append,
              List.countP_cons, isOpenZipE, isCloseZipE, hloopO, hmergeOZ, hmergeCZ]
        · simp [batch_unzip, hd, hp, hz, List.countP_cons, isOpenZipE, isCloseZipE,
            isOpenMergerE, isCloseMergerE]
  · intro hwf
    cases hd : inp.dirExists
    · simp [batch_unzip, hd, List.countP_cons, isOpenZipE, isCloseZipE,
        isOpenMergerE, isCloseMergerE]
    · cases hp : hasPerms inp
      · simp [batch_unzip, hd, hp, List.countP_cons, isOpenZipE, isCloseZipE,
          isOpenMergerE, isCloseMergerE]
      · cases hz : (locate inp.listing).isEmpty
        · cases hde : inp.destExists <;> cases hpa : inp.pdfAvail <;>
            simp [batch_unzip, hd, hp, hz, hde, hpa, hwf, List.countP_append,
              List.countP_cons, isOpenMergerE, isCloseMergerE, hloopOM, hloopCM,
              combine_pdfs_merger_balanced]
        · simp [batch_unzip, hd, hp, hz, List.countP_cons, isOpenZipE, isCloseZipE,
            isOpenMergerE, isCloseMergerE]

/-- C9 counterexample: a run whose merger.write faults opens the merger
handle and never releases it, so not every acquired handle is released on
the failure path. -/
theorem c9_counterexample :
    (batch_unzip inpWriteFault).events.countP isOpenMergerE = 1
    ∧ (batch_unzip inpWriteFault).events.countP isCloseMergerE = 0 := by decide

/-- Witness for C9 amended on a concrete run without a write fault. -/
theorem c9_witness :
    ((batch_unzip inpMix).events.countP isOpenZipE
       = (batch_unzip inpMix).events.countP isCloseZipE)
    ∧ ((batch_unzip inpMix).events.countP isOpenMergerE
       = (batch_unzip inpMix).events.countP isCloseMergerE) :=
  ⟨(c9_zip_handles_balanced_merger_close_on_success inpMix).1,
   (c9_zip_handles_balanced_merger_close_on_success inpMix).2 rfl⟩

end ZipMerge
